import Mathlib

/-!
Shallow embedding of `ephem_tod.py` (Ephemeris Time of Day script).

Instants are modelled as `Int` seconds; a calendar day lasts `86400`
seconds, day `d` spans `[d * 86400, (d + 1) * 86400)`.  `java.time`
methods on `ZonedDateTime` translate to integer arithmetic at second
granularity (the script zeroes nanoseconds wherever they could matter).
Side effects on the openHAB event bus (`events.sendCommand`,
`events.postUpdate`) and timer creation are recorded as an ordered list
of `Event`s; logging is ignored.
-/

set_option autoImplicit false

namespace EphemTod

/-- State of an openHAB Item: a String item's value, a DateTime item's
value (seconds), or the NULL/UNDEF sentinel (`UnDefType`). -/
inductive ItemVal where
  | str (s : String)
  | dt (t : Int)
  | undef
deriving DecidableEq, Repr

/-- The `etod` metadata namespace entry of one Item: `value` is the
time-of-day state bound to the marker, `configuration` holds `type` and
the optional `set` / `file` keys. -/
structure MarkerMeta where
  type : String
  set : Option String
  file : Option String
  value : String
deriving DecidableEq, Repr

/-- The environment a recomputation cycle runs in: the item registry
(iteration order of `items`), the metadata store, the Ephemeris oracle
answers for today, two snapshots of the item states (`items` at entry,
`items2` re-read after the `item_init` grace period), and the clock. -/
structure Env where
  itemNames : List String
  meta : String → Option MarkerMeta
  isWeekend : Bool
  isBankHoliday : Bool
  isInDayset : Option String → Bool
  isCustomHoliday : Option String → Bool
  items : String → ItemVal
  items2 : String → ItemVal
  today : Int
  now : Int

/-- Name of the Item holding the observable time-of-day state. -/
def ETOD_ITEM : String := "TimeOfDay"

/-- Seconds in one calendar day. -/
def day_secs : Int := 86400

/-- `now` falls inside today's calendar day. -/
def Env.wf (env : Env) : Prop :=
  env.today * day_secs ≤ env.now ∧ env.now < (env.today + 1) * day_secs

instance (env : Env) : Decidable env.wf := by
  unfold Env.wf; infer_instance

/-- `get_key_value(i, "etod", "type")`. -/
def meta_type (env : Env) (i : String) : Option String :=
  (env.meta i).map (fun m => m.type)

/-- `get_key_value(i, "etod", "set")`. -/
def meta_set (env : Env) (i : String) : Option String :=
  (env.meta i).bind (fun m => m.set)

/-- `get_key_value(i, "etod", "file")`. -/
def meta_file (env : Env) (i : String) : Option String :=
  (env.meta i).bind (fun m => m.file)

/-- `get_value(i, "etod")`: the state value carried by a marker's
metadata (validated non-empty by `check_config` at rule load). -/
def get_value (env : Env) (i : String) : String :=
  ((env.meta i).map (fun m => m.value)).getD ""

/-- `types(type)` inside `get_times`: all registry Items whose etod
metadata `type` equals the given string. -/
def types (env : Env) (t : String) : List String :=
  env.itemNames.filter (fun i => meta_type env i == some t)

/-- `start_times['default']`. -/
def st_default (env : Env) : List String := types env "default"

/-- `start_times['weekday']`: only when today is not a weekend. -/
def st_weekday (env : Env) : List String :=
  if env.isWeekend then [] else types env "weekday"

/-- `start_times['weekend']`: only when today is a weekend. -/
def st_weekend (env : Env) : List String :=
  if env.isWeekend then types env "weekend" else []

/-- `start_times['dayset']`: dayset markers whose named set contains today. -/
def st_dayset (env : Env) : List String :=
  (types env "dayset").filter (fun i => env.isInDayset (meta_set env i))

/-- `start_times['holiday']`: only when today is a bank holiday. -/
def st_holiday (env : Env) : List String :=
  if env.isBankHoliday then types env "holiday" else []

/-- `start_times['custom']`: custom markers whose holiday file matches today. -/
def st_custom (env : Env) : List String :=
  (types env "custom").filter (fun i => env.isCustomHoliday (meta_file env i))

/-- Lookup in the `start_times` dict by category name. -/
def start_times_of (env : Env) (c : String) : List String :=
  if c = "default" then st_default env
  else if c = "weekday" then st_weekday env
  else if c = "weekend" then st_weekend env
  else if c = "dayset" then st_dayset env
  else if c = "holiday" then st_holiday env
  else if c = "custom" then st_custom env
  else []

/-- The `day_type` selection chain of `get_times` (lines 112-124):
highest-priority non-empty category, `none` when all are empty. -/
def day_type (env : Env) : Option String :=
  if st_custom env ≠ [] then some "custom"
  else if st_holiday env ≠ [] then some "holiday"
  else if st_dayset env ≠ [] then some "dayset"
  else if st_weekend env ≠ [] then some "weekend"
  else if st_weekday env ≠ [] then some "weekday"
  else if st_default env ≠ [] then some "default"
  else none

/-- Body of `get_times`.  When `day_type` is `None` the log statement
`len(start_times[day_type])` on line 126 raises a `KeyError` before the
`return` on line 127 is reached; `.error ()` models that exception. -/
def get_times_body (env : Env) : Except Unit (List String) :=
  match day_type env with
  | some c => Except.ok (start_times_of env c)
  | none => Except.error ()

/-- `get_times` as seen by its caller: the `@log_traceback` decorator
(from the helper library `core.log`) catches any exception, logs the
traceback and yields `None`, so the `KeyError` path also returns `None`. -/
def get_times (env : Env) : Option (List String) :=
  (get_times_body env).toOption

/-- The six day-type categories, highest priority first. -/
def categories : List String :=
  ["custom", "holiday", "dayset", "weekend", "weekday", "default"]

/-- Position of a category in the priority order (0 = highest). -/
def priority (c : String) : Nat :=
  if c = "custom" then 0
  else if c = "holiday" then 1
  else if c = "dayset" then 2
  else if c = "weekend" then 3
  else if c = "weekday" then 4
  else if c = "default" then 5
  else 6

theorem mem_types (env : Env) (t : String) (i : String) (h : i ∈ types env t) :
    meta_type env i = some t := by
  have h2 := (List.mem_filter.mp h).2
  simpa using h2

theorem mem_start_times_of (env : Env) (c : String) (hc : c ∈ categories) (i : String)
    (h : i ∈ start_times_of env c) : meta_type env i = some c := by
  simp only [categories, List.mem_cons, List.not_mem_nil, or_false] at hc
  rcases hc with rfl | rfl | rfl | rfl | rfl | rfl
  · have h2 : i ∈ st_custom env := by simpa [start_times_of] using h
    exact mem_types env _ i (List.mem_filter.mp h2).1
  · have h2 : i ∈ st_holiday env := by simpa [start_times_of] using h
    unfold st_holiday at h2
    split at h2
    · exact mem_types env _ i h2
    · simp at h2
  · have h2 : i ∈ st_dayset env := by simpa [start_times_of] using h
    exact mem_types env _ i (List.mem_filter.mp h2).1
  · have h2 : i ∈ st_weekend env := by simpa [start_times_of] using h
    unfold st_weekend at h2
    split at h2
    · exact mem_types env _ i h2
    · simp at h2
  · have h2 : i ∈ st_weekday env := by simpa [start_times_of] using h
    unfold st_weekday at h2
    split at h2
    · simp at h2
    · exact mem_types env _ i h2
  · have h2 : i ∈ st_default env := by simpa [start_times_of] using h
    exact mem_types env _ i h2

theorem day_type_spec (env : Env) (c : String) (h : day_type env = some c) :
    c ∈ categories ∧ start_times_of env c ≠ [] ∧
      ∀ c', c' ∈ categories → priority c' < priority c → start_times_of env c' = [] := by
  unfold day_type at h
  split_ifs at h with h1 h2 h3 h4 h5 h6 <;> injection h with h <;> subst h <;>
    refine ⟨by decide, ?_, ?_⟩
  · simpa [start_times_of] using h1
  · intro c' hc' hp
    simp only [categories, List.mem_cons, List.not_mem_nil, or_false] at hc'
    rcases hc' with rfl | rfl | rfl | rfl | rfl | rfl <;> simp [priority] at hp
  · simpa [start_times_of] using h2
  · intro c' hc' hp
    simp only [categories, List.mem_cons, List.not_mem_nil, or_false] at hc'
    rw [not_ne_iff] at h1
    rcases hc' with rfl | rfl | rfl | rfl | rfl | rfl <;> simp [priority] at hp <;>
      simpa [start_times_of] using h1
  · simpa [start_times_of] using h3
  · intro c' hc' hp
    simp only [categories, List.mem_cons, List.not_mem_nil, or_false] at hc'
    rw [not_ne_iff] at h1 h2
    rcases hc' with rfl | rfl | rfl | rfl | rfl | rfl <;> simp [priority] at hp
    · simpa [start_times_of] using h1
    · simpa [start_times_of] using h2
  · simpa [start_times_of] using h4
  · intro c' hc' hp
    simp only [categories, List.mem_cons, List.not_mem_nil, or_false] at hc'
    rw [not_ne_iff] at h1 h2 h3
    rcases hc' with rfl | rfl | rfl | rfl | rfl | rfl <;> simp [priority] at hp
    · simpa [start_times_of] using h1
    · simpa [start_times_of] using h2
    · simpa [start_times_of] using h3
  · simpa [start_times_of] using h5
  · intro c' hc' hp
    simp only [categories, List.mem_cons, List.not_mem_nil, or_false] at hc'
    rw [not_ne_iff] at h1 h2 h3 h4
    rcases hc' with rfl | rfl | rfl | rfl | rfl | rfl <;> simp [priority] at hp
    · simpa [start_times_of] using h1
    · simpa [start_times_of] using h2
    · simpa [start_times_of] using h3
    · simpa [start_times_of] using h4
  · simpa [start_times_of] using h6
  · intro c' hc' hp
    simp only [categories, List.mem_cons, List.not_mem_nil, or_false] at hc'
    rw [not_ne_iff] at h1 h2 h3 h4 h5
    rcases hc' with rfl | rfl | rfl | rfl | rfl | rfl <;> simp [priority] at hp
    · simpa [start_times_of] using h1
    · simpa [start_times_of] using h2
    · simpa [start_times_of] using h3
    · simpa [start_times_of] using h4
    · simpa [start_times_of] using h5

theorem day_type_none (env : Env) (h : day_type env = none) :
    ∀ c, c ∈ categories → start_times_of env c = [] := by
  unfold day_type at h
  split_ifs at h with h1 h2 h3 h4 h5 h6 <;> try simp at h
  intro c hc
  simp only [categories, List.mem_cons, List.not_mem_nil, or_false] at hc
  rw [not_ne_iff] at h1 h2 h3 h4 h5 h6
  rcases hc with rfl | rfl | rfl | rfl | rfl | rfl
  · simpa [start_times_of] using h1
  · simpa [start_times_of] using h2
  · simpa [start_times_of] using h3
  · simpa [start_times_of] using h4
  · simpa [start_times_of] using h5
  · simpa [start_times_of] using h6

/-- C1: for every configuration and every day, `get_times` returns the
markers of exactly one category, the highest-priority non-empty one in
the order custom > holiday > dayset > weekend > weekday > default, and
no marker of a different category (in particular of a lower-priority
category that also qualifies today) is ever included in the result. -/
theorem get_times_single_category (env : Env) :
    (∀ l, get_times env = some l →
      ∃ c, c ∈ categories ∧ start_times_of env c ≠ [] ∧ l = start_times_of env c ∧
        (∀ c', c' ∈ categories → priority c' < priority c → start_times_of env c' = []) ∧
        (∀ c', c' ∈ categories → c' ≠ c → ∀ i, i ∈ start_times_of env c' → i ∉ l)) ∧
    (get_times env = none → ∀ c, c ∈ categories → start_times_of env c = []) := by
  constructor
  · intro l hl
    unfold get_times get_times_body at hl
    rcases hdt : day_type env with _ | c
    · rw [hdt] at hl; simp [Except.toOption] at hl
    · rw [hdt] at hl
      simp only [Except.toOption, Option.some.injEq] at hl
      obtain ⟨hc, hne, hhp⟩ := day_type_spec env c hdt
      refine ⟨c, hc, hne, hl.symm, hhp, ?_⟩
      intro c' hc' hcc i hi hil
      rw [← hl] at hil
      have t1 := mem_start_times_of env c hc i hil
      have t2 := mem_start_times_of env c' hc' i hi
      rw [t1] at t2
      exact hcc (Option.some.inj t2).symm
  · intro h0 c hc
    unfold get_times get_times_body at h0
    rcases hdt : day_type env with _ | c2
    · exact day_type_none env hdt c hc
    · rw [hdt] at h0; simp [Except.toOption] at h0

/-- Witness for C1 at a concrete configuration: a weekday with both a
default and a weekday marker configured; the weekday category wins and
the default marker is excluded. -/
theorem get_times_single_category_witness :
    ∃ c, c ∈ categories ∧
      start_times_of
        { itemNames := ["vDefault", "vWork"],
          meta := fun i =>
            if i = "vDefault" then some ⟨"default", none, none, "DAY"⟩
            else if i = "vWork" then some ⟨"weekday", none, none, "WORKDAY"⟩
            else none,
          isWeekend := false, isBankHoliday := false,
          isInDayset := fun _ => false, isCustomHoliday := fun _ => false,
          items := fun _ => ItemVal.undef, items2 := fun _ => ItemVal.undef,
          today := 0, now := 0 } c ≠ [] ∧
      ["vWork"] = start_times_of
        { itemNames := ["vDefault", "vWork"],
          meta := fun i =>
            if i = "vDefault" then some ⟨"default", none, none, "DAY"⟩
            else if i = "vWork" then some ⟨"weekday", none, none, "WORKDAY"⟩
            else none,
          isWeekend := false, isBankHoliday := false,
          isInDayset := fun _ => false, isCustomHoliday := fun _ => false,
          items := fun _ => ItemVal.undef, items2 := fun _ => ItemVal.undef,
          today := 0, now := 0 } c ∧
      (∀ c', c' ∈ categories → priority c' < priority c →
        start_times_of
        { itemNames := ["vDefault", "vWork"],
          meta := fun i =>
            if i = "vDefault" then some ⟨"default", none, none, "DAY"⟩
            else if i = "vWork" then some ⟨"weekday", none, none, "WORKDAY"⟩
            else none,
          isWeekend := false, isBankHoliday := false,
          isInDayset := fun _ => false, isCustomHoliday := fun _ => false,
          items := fun _ => ItemVal.undef, items2 := fun _ => ItemVal.undef,
          today := 0, now := 0 } c' = []) ∧
      (∀ c', c' ∈ categories → c' ≠ c → ∀ i, i ∈ start_times_of
        { itemNames := ["vDefault", "vWork"],
          meta := fun i =>
            if i = "vDefault" then some ⟨"default", none, none, "DAY"⟩
            else if i = "vWork" then some ⟨"weekday", none, none, "WORKDAY"⟩
            else none,
          isWeekend := false, isBankHoliday := false,
          isInDayset := fun _ => false, isCustomHoliday := fun _ => false,
          items := fun _ => ItemVal.undef, items2 := fun _ => ItemVal.undef,
          today := 0, now := 0 } c' → i ∉ ["vWork"]) :=
  (get_times_single_category _).1 ["vWork"] (by decide)

/-- Side effects recorded against the openHAB event bus and the timer
manager: item updates, item commands, and timer creation. -/
inductive Event where
  | postUpdate (item : String) (time : Int)
  | sendCommand (item : String) (val : ItemVal)
  | schedule (name : String) (time : Int)
deriving DecidableEq, Repr

/-- True exactly on bus commands; updates and timer creation are not
commands. -/
def Event.isCommand : Event → Bool
  | .sendCommand _ _ => true
  | _ => false

/-- Reading a DateTime Item's value, `to_datetime(items[i])`; callers
guard against NULL/UNDEF before this point is reached. -/
def itemInstant : ItemVal → Int
  | .dt t => t
  | _ => 0

/-- Modelled from the spec: `community.time_utils.to_today` is repository
code not included under src/.  Spec 4.2 step 2: the trigger instant is
today's date combined with the marker's time-of-day component. -/
def to_today (env : Env) (v : ItemVal) : Int :=
  env.today * day_secs + (itemInstant v) % day_secs

/-- The trigger instant of marker `i` in this cycle,
`to_today(items[i])`. -/
def trigger (env : Env) (i : String) : Int :=
  to_today env (env.items i)

/-- Modelled from the spec: `community.timer_mgr.TimerMgr` is repository
code not included under src/.  Spec 4.3: `check` creates a named timer or
atomically replaces the one already registered under that name. -/
def timers_check (reg : List (String × Int)) (n : String) (t : Int) :
    List (String × Int) :=
  (reg.filter (fun p => p.1 != n)) ++ [(n, t)]

/-- Scheduled instant of the named timer, when one is registered. -/
def timers_lookup (reg : List (String × Int)) (n : String) : Option Int :=
  (reg.find? (fun p => p.1 == n)).map (fun p => p.2)

/-- Modelled from the spec: spec 4.3, cancelling a named timer removes
it; cancelling an absent name is a no-op. -/
def timers_cancel (reg : List (String × Int)) (n : String) :
    List (String × Int) :=
  reg.filter (fun p => p.1 != n)

/-- The names holding a live timer in the registry. -/
def timer_names (reg : List (String × Int)) : List String :=
  reg.map (fun p => p.1)

/-- `core.utils.send_command_if_different` (external helper library):
issues the command only when the item's current state differs from the
target value. -/
def send_command_if_different (env : Env) (item : String) (v : ItemVal) :
    List Event :=
  if env.items item = v then [] else [Event.sendCommand item v]

/-- `etod_transition(state)` (lines 129-138): commands the TimeOfDay
item to the given state unconditionally when a transition timer fires. -/
def etod_transition (state : String) : List Event :=
  [Event.sendCommand ETOD_ITEM (ItemVal.str state)]

/-- Loop state of `create_timers`: the most-recent-past candidate
(instant and state), the timer registry, and the events recorded so
far. -/
structure CtState where
  most_recent_time : Int
  most_recent_state : ItemVal
  timers : List (String × Int)
  events : List Event
deriving DecidableEq, Repr

/-- One iteration of the `for time in start_times` loop of
`create_timers` (lines 156-187): roll a stale Item forward with a
postUpdate, then either adopt the trigger as the new most-recent-past
instant (strictly past now and strictly after the candidate), schedule
a timer (strictly future), or ignore it. -/
def create_timers_step (env : Env) (s : CtState) (time : String) : CtState :=
  let item_time := itemInstant (env.items time)
  let trigger_time := trigger env time
  let s1 := if item_time < trigger_time then
      { s with events := s.events ++ [Event.postUpdate time trigger_time] }
    else s
  let state := get_value env time
  if trigger_time < env.now ∧ s1.most_recent_time < trigger_time then
    { s1 with most_recent_time := trigger_time,
              most_recent_state := ItemVal.str state }
  else if env.now < trigger_time then
    { s1 with timers := timers_check s1.timers state trigger_time,
              events := s1.events ++ [Event.schedule state trigger_time] }
  else s1

/-- `create_timers` (lines 140-191): fold the loop over the marker list
starting from the baseline (one day before now, current TimeOfDay
value), then command the TimeOfDay item if the resolved state differs. -/
def create_timers (env : Env) (timers0 : List (String × Int))
    (start_times : List String) : CtState :=
  let s0 : CtState := ⟨env.now - day_secs, env.items ETOD_ITEM, timers0, []⟩
  let s := start_times.foldl (create_timers_step env) s0
  { s with events :=
      s.events ++ send_command_if_different env ETOD_ITEM s.most_recent_state }

/-- The most-recent-past selection of one loop iteration, projected to
the (instant, state) pair it maintains. -/
def resolve_step (env : Env) (p : Int × ItemVal) (time : String) :
    Int × ItemVal :=
  if trigger env time < env.now ∧ p.1 < trigger env time then
    (trigger env time, ItemVal.str (get_value env time))
  else p

theorem create_timers_step_proj (env : Env) (s : CtState) (m : String) :
    ((create_timers_step env s m).most_recent_time,
     (create_timers_step env s m).most_recent_state) =
      resolve_step env (s.most_recent_time, s.most_recent_state) m := by
  by_cases h1 : itemInstant (env.items m) < trigger env m <;>
    simp only [create_timers_step, resolve_step, h1, if_true, if_false, ite_true,
      ite_false] <;> split_ifs <;> simp_all

theorem create_timers_foldl_proj (env : Env) (l : List String) (s : CtState) :
    ((l.foldl (create_timers_step env) s).most_recent_time,
     (l.foldl (create_timers_step env) s).most_recent_state) =
      l.foldl (resolve_step env) (s.most_recent_time, s.most_recent_state) := by
  induction l generalizing s with
  | nil => rfl
  | cons m l ih =>
    simp only [List.foldl_cons]
    rw [ih, create_timers_step_proj]

theorem resolve_foldl_stable (env : Env) (l : List String) (t : Int) (v : ItemVal)
    (h : ∀ m ∈ l, trigger env m < env.now → trigger env m ≤ t) :
    l.foldl (resolve_step env) (t, v) = (t, v) := by
  induction l with
  | nil => rfl
  | cons m l ih =>
    simp only [List.foldl_cons]
    have hstep : resolve_step env (t, v) m = (t, v) := by
      unfold resolve_step
      rw [if_neg]
      rintro ⟨hlt, hgt⟩
      exact absurd (h m (List.mem_cons_self m l) hlt) (by simpa using hgt)
    rw [hstep]
    exact ih (fun x hx => h x (List.mem_cons_of_mem _ hx))

theorem resolve_foldl_first_max (env : Env) (l1 l2 : List String) (m : String)
    (t : Int) (v : ItemVal)
    (hmp : trigger env m < env.now) (ht : t < trigger env m)
    (h1 : ∀ x ∈ l1, trigger env x < env.now → trigger env x < trigger env m)
    (h2 : ∀ x ∈ l2, trigger env x < env.now → trigger env x ≤ trigger env m) :
    (l1 ++ m :: l2).foldl (resolve_step env) (t, v) =
      (trigger env m, ItemVal.str (get_value env m)) := by
  induction l1 generalizing t v with
  | nil =>
    simp only [List.nil_append, List.foldl_cons]
    have hstep : resolve_step env (t, v) m =
        (trigger env m, ItemVal.str (get_value env m)) := by
      unfold resolve_step
      rw [if_pos ⟨hmp, ht⟩]
    rw [hstep]
    exact resolve_foldl_stable env l2 _ _ h2
  | cons a l1 ih =>
    simp only [List.cons_append, List.foldl_cons]
    have ht' : (resolve_step env (t, v) a).1 < trigger env m := by
      unfold resolve_step
      split_ifs with hc
      · exact h1 a (List.mem_cons_self a l1) hc.1
      · exact ht
    have := ih (resolve_step env (t, v) a).1 (resolve_step env (t, v) a).2 ht'
      (fun x hx => h1 x (List.mem_cons_of_mem _ hx))
    simpa using this

theorem create_timers_step_events_shape (env : Env) (s : CtState) (m : String) :
    ∃ d, (create_timers_step env s m).events = s.events ++ d ∧
      ∀ e ∈ d, e.isCommand = false := by
  by_cases h1 : itemInstant (env.items m) < trigger env m <;>
    simp only [create_timers_step, h1, if_true, if_false, ite_true, ite_false] <;>
    split_ifs
  · exact ⟨[Event.postUpdate m (trigger env m)], by simp, by
      intro e he; simp at he; subst he; rfl⟩
  · exact ⟨[Event.postUpdate m (trigger env m),
            Event.schedule (get_value env m) (trigger env m)], by simp, by
      intro e he; simp at he; rcases he with rfl | rfl <;> rfl⟩
  · exact ⟨[Event.postUpdate m (trigger env m)], by simp, by
      intro e he; simp at he; subst he; rfl⟩
  · exact ⟨[], by simp, by simp⟩
  · exact ⟨[Event.schedule (get_value env m) (trigger env m)], by simp, by
      intro e he; simp at he; subst he; rfl⟩
  · exact ⟨[], by simp, by simp⟩

theorem create_timers_foldl_events_shape (env : Env) (l : List String) (s : CtState) :
    ∃ d, (l.foldl (create_timers_step env) s).events = s.events ++ d ∧
      ∀ e ∈ d, e.isCommand = false := by
  induction l generalizing s with
  | nil => exact ⟨[], by simp, by simp⟩
  | cons m l ih =>
    obtain ⟨d1, hd1, hnc1⟩ := create_timers_step_events_shape env s m
    obtain ⟨d2, hd2, hnc2⟩ := ih (create_timers_step env s m)
    refine ⟨d1 ++ d2, ?_, ?_⟩
    · simp only [List.foldl_cons, hd2, hd1, List.append_assoc]
    · intro e he
      rcases List.mem_append.mp he with h | h
      exacts [hnc1 e h, hnc2 e h]

theorem foldl_events_prefix (env : Env) (l : List String) (s : CtState) (e : Event)
    (he : e ∈ s.events) : e ∈ (l.foldl (create_timers_step env) s).events := by
  obtain ⟨d, hd, -⟩ := create_timers_foldl_events_shape env l s
  rw [hd, List.mem_append]
  exact Or.inl he

theorem mem_timer_names_check (reg : List (String × Int)) (nm : String) (t : Int)
    (n : String) (h : n ∈ timer_names reg) :
    n ∈ timer_names (timers_check reg nm t) := by
  by_cases hn : n = nm
  · subst hn; simp [timer_names, timers_check]
  · unfold timer_names timers_check at *
    simp only [List.map_append, List.mem_append]
    left
    obtain ⟨p, hp, rfl⟩ := List.mem_map.mp h
    exact List.mem_map.mpr ⟨p, List.mem_filter.mpr ⟨hp, by simpa using hn⟩, rfl⟩

theorem self_mem_timer_names_check (reg : List (String × Int)) (nm : String) (t : Int) :
    nm ∈ timer_names (timers_check reg nm t) := by
  simp [timer_names, timers_check]

theorem create_timers_step_names_mono (env : Env) (s : CtState) (m : String)
    (n : String) (h : n ∈ timer_names s.timers) :
    n ∈ timer_names (create_timers_step env s m).timers := by
  by_cases h1 : itemInstant (env.items m) < trigger env m <;>
    simp only [create_timers_step, h1, if_true, if_false, ite_true, ite_false] <;>
    split_ifs <;>
    first
      | exact h
      | exact mem_timer_names_check _ _ _ _ h

theorem create_timers_step_schedules (env : Env) (s : CtState) (m : String)
    (hf : env.now < trigger env m) :
    get_value env m ∈ timer_names (create_timers_step env s m).timers := by
  have hnp : ¬ trigger env m < env.now := lt_asymm hf
  by_cases h1 : itemInstant (env.items m) < trigger env m <;>
    simp only [create_timers_step, h1, if_true, if_false, ite_true, ite_false] <;>
    rw [if_neg (fun hc => hnp hc.1), if_pos hf] <;>
    exact self_mem_timer_names_check _ _ _

theorem create_timers_foldl_names_mono (env : Env) (l : List String) (s : CtState)
    (n : String) (h : n ∈ timer_names s.timers) :
    n ∈ timer_names (l.foldl (create_timers_step env) s).timers := by
  induction l generalizing s with
  | nil => exact h
  | cons m l ih => exact ih _ (create_timers_step_names_mono env s m n h)

theorem create_timers_foldl_schedules (env : Env) (l : List String) (s : CtState)
    (x : String) (hx : x ∈ l) (hf : env.now < trigger env x) :
    get_value env x ∈ timer_names (l.foldl (create_timers_step env) s).timers := by
  obtain ⟨la, lb, rfl⟩ := List.append_of_mem hx
  rw [List.foldl_append, List.foldl_cons]
  exact create_timers_foldl_names_mono env lb _ _
    (create_timers_step_schedules env _ x hf)

/-- C2 (amended): in `create_timers` a marker whose trigger instant is
strictly before now and strictly later than every past trigger processed
before it (so among equal past instants the FIRST processed marker wins,
not the last) becomes the resolved most-recent-past state; markers whose
trigger instant is strictly after now are scheduled as future timers; a
marker whose trigger instant equals now exactly is neither adopted nor
scheduled. -/
theorem create_timers_resolution (env : Env) (timers0 : List (String × Int))
    (l1 l2 : List String) (m : String)
    (hwf : env.wf) (hmp : trigger env m < env.now)
    (h1 : ∀ x ∈ l1, trigger env x < env.now → trigger env x < trigger env m)
    (h2 : ∀ x ∈ l2, trigger env x < env.now → trigger env x ≤ trigger env m) :
    (create_timers env timers0 (l1 ++ m :: l2)).most_recent_time = trigger env m ∧
    (create_timers env timers0 (l1 ++ m :: l2)).most_recent_state =
      ItemVal.str (get_value env m) ∧
    ∀ x ∈ l1 ++ m :: l2, env.now < trigger env x →
      get_value env x ∈
        timer_names (create_timers env timers0 (l1 ++ m :: l2)).timers := by
  have ht : env.now - day_secs < trigger env m := by
    have hn := hwf.2
    simp only [trigger, to_today, day_secs] at *
    omega
  have hfold := create_timers_foldl_proj env (l1 ++ m :: l2)
    ⟨env.now - day_secs, env.items ETOD_ITEM, timers0, []⟩
  rw [resolve_foldl_first_max env l1 l2 m _ _ hmp ht h1 h2, Prod.mk.injEq] at hfold
  obtain ⟨hmt, hms⟩ := hfold
  refine ⟨by simpa [create_timers] using hmt, by simpa [create_timers] using hms, ?_⟩
  intro x hx hfx
  have := create_timers_foldl_schedules env (l1 ++ m :: l2)
    ⟨env.now - day_secs, env.items ETOD_ITEM, timers0, []⟩ x hx hfx
  simpa [create_timers] using this

/-- Environment for the spec scenario: marker vMorning at 06:00 with
state DAY, marker vNight at 20:00 with state NIGHT, both dated today,
now 14:00, observable value EVENING. -/
def envDayCycle : Env :=
  { itemNames := ["vMorning", "vNight"],
    meta := fun i =>
      if i = "vMorning" then some ⟨"default", none, none, "DAY"⟩
      else if i = "vNight" then some ⟨"default", none, none, "NIGHT"⟩
      else none,
    isWeekend := false, isBankHoliday := false,
    isInDayset := fun _ => false, isCustomHoliday := fun _ => false,
    items := fun i =>
      if i = "vMorning" then ItemVal.dt 21600
      else if i = "vNight" then ItemVal.dt 72000
      else if i = "TimeOfDay" then ItemVal.str "EVENING"
      else ItemVal.undef,
    items2 := fun i =>
      if i = "vMorning" then ItemVal.dt 21600
      else if i = "vNight" then ItemVal.dt 72000
      else if i = "TimeOfDay" then ItemVal.str "EVENING"
      else ItemVal.undef,
    today := 0, now := 50400 }

/-- Witness for C2 on the spec scenario: morning (06:00, most recent
past) resolves as the current period DAY and night (20:00) is scheduled
as a future timer. -/
theorem create_timers_resolution_witness :
    envDayCycle.wf ∧ trigger envDayCycle "vMorning" < envDayCycle.now ∧
    ((create_timers envDayCycle [] (([] : List String) ++ "vMorning" :: ["vNight"])).most_recent_time =
        trigger envDayCycle "vMorning" ∧
      (create_timers envDayCycle [] (([] : List String) ++ "vMorning" :: ["vNight"])).most_recent_state =
        ItemVal.str (get_value envDayCycle "vMorning") ∧
      ∀ x ∈ ([] : List String) ++ "vMorning" :: ["vNight"],
        envDayCycle.now < trigger envDayCycle x →
        get_value envDayCycle x ∈
          timer_names (create_timers envDayCycle [] (([] : List String) ++ "vMorning" :: ["vNight"])).timers) :=
  ⟨by decide, by decide,
    create_timers_resolution envDayCycle [] [] ["vNight"] "vMorning"
      (by decide) (by decide) (by decide) (by decide)⟩

/-- Environment with one marker vM (state DAY) whose trigger instant is
exactly now (06:00 today); the observable value is OLD. -/
def envAtNow : Env :=
  { itemNames := ["vM"],
    meta := fun i => if i = "vM" then some ⟨"default", none, none, "DAY"⟩ else none,
    isWeekend := false, isBankHoliday := false,
    isInDayset := fun _ => false, isCustomHoliday := fun _ => false,
    items := fun i =>
      if i = "vM" then ItemVal.dt 21600
      else if i = "TimeOfDay" then ItemVal.str "OLD"
      else ItemVal.undef,
    items2 := fun i =>
      if i = "vM" then ItemVal.dt 21600
      else if i = "TimeOfDay" then ItemVal.str "OLD"
      else ItemVal.undef,
    today := 0, now := 21600 }

/-- Environment with two markers vA (state S1) and vB (state S2) whose
trigger instants are both 06:00 today, now 14:00, observable value OLD. -/
def envTie : Env :=
  { itemNames := ["vA", "vB"],
    meta := fun i =>
      if i = "vA" then some ⟨"default", none, none, "S1"⟩
      else if i = "vB" then some ⟨"default", none, none, "S2"⟩
      else none,
    isWeekend := false, isBankHoliday := false,
    isInDayset := fun _ => false, isCustomHoliday := fun _ => false,
    items := fun i =>
      if i = "vA" then ItemVal.dt 21600
      else if i = "vB" then ItemVal.dt 21600
      else if i = "TimeOfDay" then ItemVal.str "OLD"
      else ItemVal.undef,
    items2 := fun i =>
      if i = "vA" then ItemVal.dt 21600
      else if i = "vB" then ItemVal.dt 21600
      else if i = "TimeOfDay" then ItemVal.str "OLD"
      else ItemVal.undef,
    today := 0, now := 50400 }

/-- C2 counterexample: a marker whose trigger instant is AT now (the
claim says "at or before now") is ignored — the resolved state stays
OLD instead of becoming DAY — and between two markers tied at the same
past instant the FIRST processed one wins (S1), not the last (the claim
says last wins, predicting S2). -/
theorem create_timers_resolution_counterexample :
    (create_timers envAtNow [] ["vM"]).most_recent_state = ItemVal.str "OLD" ∧
    ItemVal.str "OLD" ≠ ItemVal.str "DAY" ∧
    (create_timers envTie [] ["vA", "vB"]).most_recent_state = ItemVal.str "S1" ∧
    ItemVal.str "S1" ≠ ItemVal.str "S2" := by
  refine ⟨by decide, by decide, by decide, by decide⟩

/-- C3: the most-recent baseline is initialised to one day before now
paired with the observed TimeOfDay value, so when no marker has a
strictly past trigger instant the resolved current-period state is the
pre-existing observable value and no bus command at all is recorded. -/
theorem create_timers_keeps_prior_state (env : Env) (timers0 : List (String × Int))
    (l : List String) (h : ∀ m ∈ l, ¬ trigger env m < env.now) :
    (create_timers env timers0 l).most_recent_time = env.now - day_secs ∧
    (create_timers env timers0 l).most_recent_state = env.items ETOD_ITEM ∧
    ∀ e ∈ (create_timers env timers0 l).events, e.isCommand = false := by
  have hfold := create_timers_foldl_proj env l
    ⟨env.now - day_secs, env.items ETOD_ITEM, timers0, []⟩
  rw [resolve_foldl_stable env l _ _ (fun m hm hlt => absurd hlt (h m hm)),
    Prod.mk.injEq] at hfold
  obtain ⟨hmt, hms⟩ := hfold
  refine ⟨by simpa [create_timers] using hmt, by simpa [create_timers] using hms, ?_⟩
  intro e he
  simp only [create_timers] at he
  rw [List.mem_append] at he
  rcases he with he | he
  · obtain ⟨d, hd, hnc⟩ := create_timers_foldl_events_shape env l
      ⟨env.now - day_secs, env.items ETOD_ITEM, timers0, []⟩
    rw [hd] at he
    simp only [List.nil_append] at he
    exact hnc e he
  · rw [hms, send_command_if_different, if_pos rfl] at he
    simp at he

/-- Environment for the spec scenario with a stale marker: vNight is
still dated yesterday 20:00, vMorning is today 06:00, now is 05:00
today, observable value NIGHT. -/
def envStale : Env :=
  { itemNames := ["vMorning", "vNight"],
    meta := fun i =>
      if i = "vMorning" then some ⟨"default", none, none, "DAY"⟩
      else if i = "vNight" then some ⟨"default", none, none, "NIGHT"⟩
      else none,
    isWeekend := false, isBankHoliday := false,
    isInDayset := fun _ => false, isCustomHoliday := fun _ => false,
    items := fun i =>
      if i = "vMorning" then ItemVal.dt 108000
      else if i = "vNight" then ItemVal.dt 72000
      else if i = "TimeOfDay" then ItemVal.str "NIGHT"
      else ItemVal.undef,
    items2 := fun i =>
      if i = "vMorning" then ItemVal.dt 108000
      else if i = "vNight" then ItemVal.dt 72000
      else if i = "TimeOfDay" then ItemVal.str "NIGHT"
      else ItemVal.undef,
    today := 1, now := 104400 }

/-- Witness for C3 on the spec scenario: both markers are in the future
(the stale vNight rolls forward to tonight), so the pre-existing NIGHT
value is preserved and nothing is commanded. -/
theorem create_timers_keeps_prior_state_witness :
    (∀ m ∈ ["vMorning", "vNight"], ¬ trigger envStale m < envStale.now) ∧
    ((create_timers envStale [] ["vMorning", "vNight"]).most_recent_time =
        envStale.now - day_secs ∧
      (create_timers envStale [] ["vMorning", "vNight"]).most_recent_state =
        envStale.items ETOD_ITEM ∧
      ∀ e ∈ (create_timers envStale [] ["vMorning", "vNight"]).events,
        e.isCommand = false) :=
  ⟨by decide, create_timers_keeps_prior_state envStale [] ["vMorning", "vNight"] (by decide)⟩

/-- C4: a marker stored with a calendar date before today is corrected
by a postUpdate to today's date with its time-of-day preserved, recorded
within its loop iteration before any timer that iteration schedules; the
trigger instant used for classification is today's date plus the
marker's stored time-of-day. -/
theorem create_timers_rolls_stale_forward (env : Env) (timers0 : List (String × Int))
    (l : List String) (m : String) (hm : m ∈ l)
    (hstale : itemInstant (env.items m) / day_secs < env.today) :
    Event.postUpdate m (trigger env m) ∈ (create_timers env timers0 l).events ∧
    trigger env m % day_secs = itemInstant (env.items m) % day_secs ∧
    trigger env m / day_secs = env.today ∧
    ∀ s : CtState, ∃ rest,
      (create_timers_step env s m).events =
        s.events ++ Event.postUpdate m (trigger env m) :: rest ∧
      ∀ e ∈ rest, ∃ n t, e = Event.schedule n t := by
  have hlt : itemInstant (env.items m) < trigger env m := by
    simp only [trigger, to_today, day_secs] at *
    omega
  have hstep : ∀ s : CtState, ∃ rest,
      (create_timers_step env s m).events =
        s.events ++ Event.postUpdate m (trigger env m) :: rest ∧
      ∀ e ∈ rest, ∃ n t, e = Event.schedule n t := by
    intro s
    simp only [create_timers_step, hlt, ite_true]
    split_ifs
    · exact ⟨[], by simp, by simp⟩
    · exact ⟨[Event.schedule (get_value env m) (trigger env m)], by simp, by simp⟩
    · exact ⟨[], by simp, by simp⟩
  refine ⟨?_, ?_, ?_, hstep⟩
  · obtain ⟨la, lb, rfl⟩ := List.append_of_mem hm
    simp only [create_timers, List.foldl_append, List.foldl_cons]
    rw [List.mem_append]
    left
    apply foldl_events_prefix
    obtain ⟨rest, hrest, -⟩ := hstep (la.foldl (create_timers_step env)
      ⟨env.now - day_secs, env.items ETOD_ITEM, timers0, []⟩)
    rw [hrest]
    simp
  · simp only [trigger, to_today, day_secs]
    omega
  · simp only [trigger, to_today, day_secs]
    omega

/-- Witness for C4: the stale vNight marker (stored yesterday 20:00,
today = day 1) is rolled forward to today 20:00 by a postUpdate. -/
theorem create_timers_rolls_stale_forward_witness :
    "vNight" ∈ ["vMorning", "vNight"] ∧
    itemInstant (envStale.items "vNight") / day_secs < envStale.today ∧
    (Event.postUpdate "vNight" (trigger envStale "vNight") ∈
        (create_timers envStale [] ["vMorning", "vNight"]).events ∧
      trigger envStale "vNight" % day_secs =
        itemInstant (envStale.items "vNight") % day_secs ∧
      trigger envStale "vNight" / day_secs = envStale.today ∧
      ∀ s : CtState, ∃ rest,
        (create_timers_step envStale s "vNight").events =
          s.events ++ Event.postUpdate "vNight" (trigger envStale "vNight") :: rest ∧
        ∀ e ∈ rest, ∃ n t, e = Event.schedule n t) :=
  ⟨by decide, by decide,
    create_timers_rolls_stale_forward envStale [] ["vMorning", "vNight"] "vNight"
      (by decide) (by decide)⟩

/-- C8: the recomputation path writes the TimeOfDay item only when the
resolved current-period value differs from the observable value: when
they are equal, create_timers records no command event at all. -/
theorem create_timers_no_redundant_command (env : Env)
    (timers0 : List (String × Int)) (l : List String)
    (h : (create_timers env timers0 l).most_recent_state = env.items ETOD_ITEM) :
    ∀ e ∈ (create_timers env timers0 l).events, e.isCommand = false := by
  intro e he
  have hs : (l.foldl (create_timers_step env)
      ⟨env.now - day_secs, env.items ETOD_ITEM, timers0, []⟩).most_recent_state =
      env.items ETOD_ITEM := by
    simpa [create_timers] using h
  simp only [create_timers] at he
  rw [List.mem_append] at he
  rcases he with he | he
  · obtain ⟨d, hd, hnc⟩ := create_timers_foldl_events_shape env l
      ⟨env.now - day_secs, env.items ETOD_ITEM, timers0, []⟩
    rw [hd] at he
    simp only [List.nil_append] at he
    exact hnc e he
  · rw [hs, send_command_if_different, if_pos rfl] at he
    simp at he

/-- Environment where the resolved state equals the observable value:
marker vMorning (state DAY, 06:00 today) is most recent past while the
TimeOfDay item already holds DAY. -/
def envSame : Env :=
  { itemNames := ["vMorning"],
    meta := fun i =>
      if i = "vMorning" then some ⟨"default", none, none, "DAY"⟩ else none,
    isWeekend := false, isBankHoliday := false,
    isInDayset := fun _ => false, isCustomHoliday := fun _ => false,
    items := fun i =>
      if i = "vMorning" then ItemVal.dt 21600
      else if i = "TimeOfDay" then ItemVal.str "DAY"
      else ItemVal.undef,
    items2 := fun i =>
      if i = "vMorning" then ItemVal.dt 21600
      else if i = "TimeOfDay" then ItemVal.str "DAY"
      else ItemVal.undef,
    today := 0, now := 50400 }

/-- Witness for C8: the resolved DAY equals the current DAY, and the
run records no command. -/
theorem create_timers_no_redundant_command_witness :
    (create_timers envSame [] ["vMorning"]).most_recent_state =
      envSame.items ETOD_ITEM ∧
    ∀ e ∈ (create_timers envSame [] ["vMorning"]).events, e.isCommand = false :=
  ⟨by decide, create_timers_no_redundant_command envSame [] ["vMorning"] (by decide)⟩

/-- C10: when a transition timer fires, etod_transition commands the
bound state unconditionally — even when the observable value already
equals that state — whereas the recomputation path suppresses the
command in exactly that situation. -/
theorem etod_transition_unconditional (env : Env) (state : String)
    (h : env.items ETOD_ITEM = ItemVal.str state) :
    Event.sendCommand ETOD_ITEM (ItemVal.str state) ∈ etod_transition state ∧
    send_command_if_different env ETOD_ITEM (ItemVal.str state) = [] :=
  ⟨by simp [etod_transition], by simp [send_command_if_different, h]⟩

/-- Witness for C10: with the observable value already DAY, the fired
timer still commands DAY while the recomputation path would not. -/
theorem etod_transition_unconditional_witness :
    envSame.items ETOD_ITEM = ItemVal.str "DAY" ∧
    (Event.sendCommand ETOD_ITEM (ItemVal.str "DAY") ∈ etod_transition "DAY" ∧
      send_command_if_different envSame ETOD_ITEM (ItemVal.str "DAY") = []) :=
  ⟨by decide, etod_transition_unconditional envSame "DAY" (by decide)⟩

/-- Markers among the start times whose Item state is NULL/UNDEF
(line 209). -/
def null_items_of (env : Env) (sts : List String) : List String :=
  sts.filter (fun i => env.items i == ItemVal.undef)

/-- Whether ephem_tod kicks off item_init: some markers are NULL and an
InitItems Item exists in the registry (lines 210-216). -/
def kicked (env : Env) (sts : List String) : Bool :=
  !(null_items_of env sts).isEmpty && env.itemNames.contains "InitItems"

/-- The command issued by the init kick-off when it happens (line 214). -/
def ephem_init_events (env : Env) (sts : List String) : List Event :=
  if kicked env sts then [Event.sendCommand "InitItems" (ItemVal.str "ON")] else []

/-- The environment after the optional grace period: when item_init was
kicked off, time has passed and the item states are re-read from the
second snapshot; otherwise the first snapshot is still current. -/
def ephem_env2 (env : Env) (sts : List String) : Env :=
  if kicked env sts then { env with items := env.items2 } else env

/-- The re-check of line 219: markers still NULL/UNDEF after the grace
period. -/
def ephem_null2 (env : Env) (sts : List String) : List String :=
  sts.filter (fun i => (ephem_env2 env sts).items i == ItemVal.undef)

/-- Target instant of the self-reload timer (lines 232-236): today at
00:02:00 (hour 0, minute 2, second 0, nanosecond 0), pushed to the next
calendar day when that instant is already before now. -/
def reload_target (env : Env) : Int :=
  let rt := env.today * day_secs + 120
  if rt < env.now then rt + day_secs else rt

/-- Result of one run of the ephem_tod rule: the final timer registry,
the events recorded in order, and whether the run returned early (the
aborts of lines 206 and 224). -/
structure SysResult where
  timers : List (String × Int)
  events : List Event
  aborted : Bool
deriving DecidableEq, Repr

/-- ephem_tod (lines 193-237): fetch the start times (abort when falsy),
kick off item_init when markers are NULL and re-check after the grace
period (abort when still NULL), then cancel all timers, rebuild them
with create_timers and re-register the reload timer.  Both
ZonedDateTime.now() reads (lines 152 and 232) are modelled as env.now;
the run is treated as instantaneous apart from the grace period. -/
def ephem_tod (env : Env) (timers0 : List (String × Int)) : SysResult :=
  match get_times env with
  | none => ⟨timers0, [], true⟩
  | some sts =>
    if sts.isEmpty then ⟨timers0, [], true⟩
    else if !(ephem_null2 env sts).isEmpty then
      ⟨timers0, ephem_init_events env sts, true⟩
    else
      ⟨timers_check (create_timers (ephem_env2 env sts) [] sts).timers
          "etod_reload" (reload_target env),
        ephem_init_events env sts ++
          (create_timers (ephem_env2 env sts) [] sts).events ++
          [Event.schedule "etod_reload" (reload_target env)],
        false⟩

/-- Net effect of the retirement step of load_etod (lines 259-261): the
`if etod_items:` guard on line 259 skips the loop entirely when rule
registration returned no items, keeping every timer; otherwise every
timer whose name is not among the item names carrying etod metadata is
cancelled, so exactly the timers named by such items stay. -/
def retire (reg : List (String × Int)) (etod_items : List String) :
    List (String × Int) :=
  if etod_items.isEmpty then reg
  else reg.filter (fun p => decide (p.1 ∈ etod_items))

theorem timers_lookup_check (reg : List (String × Int)) (n : String) (t : Int) :
    timers_lookup (timers_check reg n t) n = some t := by
  unfold timers_lookup timers_check
  rw [List.find?_append]
  have hnone : (reg.filter (fun p => p.1 != n)).find? (fun p => p.1 == n) = none := by
    rw [List.find?_eq_none]
    intro p hp
    have hne := (List.mem_filter.mp hp).2
    simp at hne ⊢
    exact hne
  rw [hnone]
  simp

/-- C6: when no category has any eligible marker today, get_times yields
None and the recomputation cycle aborts with no events recorded and the
timer registry untouched. -/
theorem no_start_times_aborts (env : Env) (timers0 : List (String × Int))
    (h : ∀ c, c ∈ categories → start_times_of env c = []) :
    get_times env = none ∧ ephem_tod env timers0 = ⟨timers0, [], true⟩ := by
  have hc := h "custom" (by decide)
  have hh := h "holiday" (by decide)
  have hd := h "dayset" (by decide)
  have hw := h "weekend" (by decide)
  have hwd := h "weekday" (by decide)
  have hdef := h "default" (by decide)
  simp [start_times_of] at hc hh hd hw hwd hdef
  have hdt : day_type env = none := by
    simp [day_type, hc, hh, hd, hw, hwd, hdef]
  have hgt : get_times env = none := by
    simp [get_times, get_times_body, hdt, Except.toOption]
  exact ⟨hgt, by simp [ephem_tod, hgt]⟩

/-- Environment with no etod metadata at all: every category is empty. -/
def envEmpty : Env :=
  { itemNames := [], meta := fun _ => none, isWeekend := false,
    isBankHoliday := false, isInDayset := fun _ => false,
    isCustomHoliday := fun _ => false, items := fun _ => ItemVal.undef,
    items2 := fun _ => ItemVal.undef, today := 0, now := 500 }

/-- Witness for C6: with no configured markers the cycle aborts leaving
the prior registry untouched. -/
theorem no_start_times_aborts_witness :
    (∀ c, c ∈ categories → start_times_of envEmpty c = []) ∧
    (get_times envEmpty = none ∧
      ephem_tod envEmpty [("DAY", 99)] = ⟨[("DAY", 99)], [], true⟩) :=
  ⟨by decide, no_start_times_aborts envEmpty [("DAY", 99)] (by decide)⟩

theorem ephem_tod_aborted_indep (env : Env) (t0 t0' : List (String × Int)) :
    (ephem_tod env t0).aborted = (ephem_tod env t0').aborted := by
  unfold ephem_tod
  rcases get_times env with _ | sts
  · rfl
  · dsimp only
    split_ifs <;> rfl

theorem ephem_tod_cases (env : Env) (timers0 : List (String × Int)) :
    ((ephem_tod env timers0).aborted = true ∧
      (ephem_tod env timers0).timers = timers0 ∧
      ((ephem_tod env timers0).events = [] ∨
        (ephem_tod env timers0).events =
          [Event.sendCommand "InitItems" (ItemVal.str "ON")])) ∨
    ((ephem_tod env timers0).aborted = false ∧ ∃ sts, get_times env = some sts ∧
      (ephem_tod env timers0).timers =
        timers_check (create_timers (ephem_env2 env sts) [] sts).timers
          "etod_reload" (reload_target env) ∧
      (ephem_tod env timers0).events =
        ephem_init_events env sts ++
          (create_timers (ephem_env2 env sts) [] sts).events ++
          [Event.schedule "etod_reload" (reload_target env)]) := by
  unfold ephem_tod
  rcases hg : get_times env with _ | sts
  · exact Or.inl ⟨rfl, rfl, Or.inl rfl⟩
  · dsimp only
    split_ifs with h1 h2
    · exact Or.inl ⟨rfl, rfl, Or.inl rfl⟩
    · refine Or.inl ⟨rfl, rfl, ?_⟩
      simp only [ephem_init_events]
      split_ifs
      · exact Or.inr rfl
      · exact Or.inl rfl
    · exact Or.inr ⟨rfl, sts, rfl, rfl, rfl⟩

/-- C7 (amended): a run of ephem_tod that aborts — because no start
times were found or because markers are still NULL/UNDEF after the
initialization grace period — leaves the timer registry untouched,
creates and cancels no timer, and issues no command other than possibly
the single InitItems kick-off command of the initialization path; in
particular the TimeOfDay item is never commanded. -/
theorem ephem_tod_abort_frame (env : Env) (timers0 : List (String × Int))
    (hab : (ephem_tod env timers0).aborted = true) :
    (ephem_tod env timers0).timers = timers0 ∧
    ∀ e ∈ (ephem_tod env timers0).events,
      e = Event.sendCommand "InitItems" (ItemVal.str "ON") := by
  rcases ephem_tod_cases env timers0 with ⟨-, ht, hev⟩ | ⟨hab2, -⟩
  · refine ⟨ht, ?_⟩
    intro e he
    rcases hev with hev | hev <;> rw [hev] at he
    · simp at he
    · simpa using he
  · rw [hab2] at hab
    cases hab

/-- Environment where the only marker stays NULL/UNDEF through the grace
period while an InitItems Item exists. -/
def envC7 : Env :=
  { itemNames := ["vM", "InitItems"],
    meta := fun i => if i = "vM" then some ⟨"default", none, none, "DAY"⟩ else none,
    isWeekend := false, isBankHoliday := false,
    isInDayset := fun _ => false, isCustomHoliday := fun _ => false,
    items := fun i => if i = "TimeOfDay" then ItemVal.str "OLD" else ItemVal.undef,
    items2 := fun i => if i = "TimeOfDay" then ItemVal.str "OLD" else ItemVal.undef,
    today := 0, now := 500 }

/-- C7 counterexample: this run aborts (its marker is still UNDEF after
the grace period) yet it has already issued a command — the InitItems
kick-off — so "returns before issuing any command" is false as stated. -/
theorem ephem_tod_abort_frame_counterexample :
    (ephem_tod envC7 [("etod_reload", 120)]).aborted = true ∧
    (ephem_tod envC7 [("etod_reload", 120)]).events =
      [Event.sendCommand "InitItems" (ItemVal.str "ON")] :=
  ⟨by decide, by decide⟩

/-- Witness for C7: the aborting run keeps its prior registry and emits
at most the InitItems command. -/
theorem ephem_tod_abort_frame_witness :
    (ephem_tod envC7 [("DAY", 7)]).aborted = true ∧
    ((ephem_tod envC7 [("DAY", 7)]).timers = [("DAY", 7)] ∧
      ∀ e ∈ (ephem_tod envC7 [("DAY", 7)]).events,
        e = Event.sendCommand "InitItems" (ItemVal.str "ON")) :=
  ⟨by decide, ephem_tod_abort_frame envC7 [("DAY", 7)] (by decide)⟩

/-- C5: every run of ephem_tod that reaches scheduling registers the
reload timer at 00:02:00 — at 00:02:00 of the following calendar day
when now is already past 00:02:00, and at 00:02:00 of the same day when
now is before 00:02:00. -/
theorem ephem_tod_reload_target (env : Env) (timers0 : List (String × Int))
    (hwf : env.wf) (hab : (ephem_tod env timers0).aborted = false) :
    timers_lookup (ephem_tod env timers0).timers "etod_reload" =
      some (reload_target env) ∧
    (env.today * day_secs + 120 < env.now →
      reload_target env = (env.today + 1) * day_secs + 120) ∧
    (env.now < env.today * day_secs + 120 →
      reload_target env = env.today * day_secs + 120) := by
  refine ⟨?_, ?_, ?_⟩
  · rcases ephem_tod_cases env timers0 with ⟨hab2, -⟩ | ⟨-, sts, -, ht, -⟩
    · rw [hab2] at hab
      cases hab
    · rw [ht]
      exact timers_lookup_check _ _ _
  · intro hlt
    simp only [reload_target, day_secs] at hlt ⊢
    split_ifs with hcond <;> omega
  · intro hlt
    simp only [reload_target, day_secs] at hlt ⊢
    split_ifs with hcond <;> omega

/-- Witness for C5: a 14:00 run registers the reload timer for 00:02:00
of the next day. -/
theorem ephem_tod_reload_target_witness :
    envSame.wf ∧ (ephem_tod envSame []).aborted = false ∧
    (timers_lookup (ephem_tod envSame []).timers "etod_reload" =
        some (reload_target envSame) ∧
      (envSame.today * day_secs + 120 < envSame.now →
        reload_target envSame = (envSame.today + 1) * day_secs + 120) ∧
      (envSame.now < envSame.today * day_secs + 120 →
        reload_target envSame = envSame.today * day_secs + 120)) :=
  ⟨by decide, by decide, ephem_tod_reload_target envSame [] (by decide) (by decide)⟩

/-- C9 counterexample: the retirement loop of load_etod cancels the
reload timer, because "etod_reload" is never among the metadata-bearing
item names — so the reload timer is not exempt from retirement. -/
theorem retire_cancels_reload_timer :
    retire [("etod_reload", 120)] ["vMorning"] = [] := by decide

/-- C9 (amended): a recomputation cycle that reaches scheduling rebuilds
the timer registry from scratch — the resulting registry is independent
of the registry the cycle started from and holds the reload timer with a
freshly computed target — while the retirement step of rule
reconfiguration does nothing when rule registration returned no items,
and otherwise keeps exactly the timers whose names are among the
metadata-bearing item names; since transition timers are named by state
values and the reload timer by "etod_reload", that case retires the
reload timer too. -/
theorem timer_registry_lifecycle (env : Env) (t0 t0' reg : List (String × Int))
    (its : List String) (p : String × Int)
    (hab : (ephem_tod env t0).aborted = false) :
    retire reg [] = reg ∧
    (its ≠ [] → (p ∈ retire reg its ↔ p ∈ reg ∧ p.1 ∈ its)) ∧
    (ephem_tod env t0).timers = (ephem_tod env t0').timers ∧
    timers_lookup (ephem_tod env t0).timers "etod_reload" =
      some (reload_target env) := by
  refine ⟨?_, ?_, ?_, ?_⟩
  · simp [retire]
  · intro hne
    have hie : its.isEmpty = false := by simpa using hne
    simp [retire, hie, List.mem_filter]
  · have hindep := ephem_tod_aborted_indep env t0 t0'
    rcases ephem_tod_cases env t0 with ⟨hab2, -⟩ | ⟨-, sts, hg, ht, -⟩
    · rw [hab2] at hab
      cases hab
    · rcases ephem_tod_cases env t0' with ⟨hab3, -⟩ | ⟨-, sts', hg', ht', -⟩
      · rw [hab, hab3] at hindep
        cases hindep
      · rw [hg, Option.some.injEq] at hg'
        rw [ht, ht', hg']
  · rcases ephem_tod_cases env t0 with ⟨hab2, -⟩ | ⟨-, sts, -, ht, -⟩
    · rw [hab2] at hab
      cases hab
    · rw [ht]
      exact timers_lookup_check _ _ _

/-- Witness for C9: a concrete cycle whose final registry is the same
from two different starting registries, with the reload timer freshly
targeted; the retirement step keeps everything when no item is
registered and is characterized at the reload timer otherwise. -/
theorem timer_registry_lifecycle_witness :
    (ephem_tod envSame [("x", 1)]).aborted = false ∧
    (retire [("etod_reload", (120 : Int))] [] = [("etod_reload", (120 : Int))] ∧
      ((["vMorning"] : List String) ≠ [] →
        (("etod_reload", (120 : Int)) ∈ retire [("etod_reload", 120)] ["vMorning"] ↔
          ("etod_reload", (120 : Int)) ∈ [(("etod_reload" : String), (120 : Int))] ∧
            "etod_reload" ∈ ["vMorning"])) ∧
      (ephem_tod envSame [("x", 1)]).timers = (ephem_tod envSame []).timers ∧
      timers_lookup (ephem_tod envSame [("x", 1)]).timers "etod_reload" =
        some (reload_target envSame)) :=
  ⟨by decide,
    timer_registry_lifecycle envSame [("x", 1)] [] [("etod_reload", 120)]
      ["vMorning"] ("etod_reload", 120) (by decide)⟩

end EphemTod
